import Mathlib

/-!
Verification development for the order-fulfillment dashboard in
src/src/OrderFulfillmentDashboard.jsx.  The definitions below are a shallow
embedding of the third dashboard variant (the collaborative dispatch
dashboard, source lines 929-1335): the Firestore snapshot callback that
maintains the local order cache, the filteredOrders memo (filtering,
searching, sorting), the CRUD handlers (handleUpdateStatus,
handleDeleteOrder, handleAddOrder inside AddOrderForm), the AddOrderForm
gating on linked marketplaces, and the STATUS_OPTIONS table with its badge
counts.  JavaScript values that may be undefined are embedded as Option,
thrown TypeErrors as an Except error, Date.getTime() milliseconds as Nat,
and the stable in-place Array.prototype.sort as List.insertionSort together
with an explicit before/after rendering of the mutated array.
-/

/-- A Firestore timestamp as delivered in a snapshot: the code only reads
its seconds component (doc.data().order_date.seconds). -/
structure Timestamp where
  seconds : Nat
  deriving Repr, DecidableEq

/-- The raw field content of a delivered order document (doc.data()).
Every field may be absent, which JavaScript reports as undefined. -/
structure DocData where
  order_id      : Option String
  customer_name : Option String
  marketplace   : Option String
  status        : Option String
  order_date    : Option Timestamp
  deriving Repr, DecidableEq

/-- A delivered document: Firestore id plus field data. -/
structure Doc where
  id   : String
  data : DocData
  deriving Repr, DecidableEq

/-- A cached order record as built by the onSnapshot(orderRef) callback:
{ id: doc.id, ...doc.data(), order_date: <Date> }.  The order_date field is
always a Date after the callback; it is embedded as getTime() milliseconds. -/
structure Order where
  id            : String
  order_id      : Option String
  customer_name : Option String
  marketplace   : Option String
  status        : Option String
  order_date    : Nat
  deriving Repr, DecidableEq

/-- One entry of STATUS_OPTIONS. -/
structure StatusOption where
  value : String
  label : String
  color : String
  icon  : String
  deriving Repr, DecidableEq

/-- STATUS_OPTIONS from the source (lines 944-950). -/
def STATUS_OPTIONS : List StatusOption :=
  [ ⟨"new", "Nuevo", "bg-blue-500", "A"⟩,
    ⟨"preparing", "En Preparacion", "bg-yellow-500", "B"⟩,
    ⟨"ready_to_ship", "Listo para Despacho", "bg-purple-500", "C"⟩,
    ⟨"shipped", "Enviado", "bg-green-500", "D"⟩,
    ⟨"cancelled", "Cancelado", "bg-red-500", "E"⟩ ]

/-- getStatusDetails from the source (line 953): find the option with the
given value, defaulting to STATUS_OPTIONS[0]. -/
def getStatusDetails (statusValue : String) : StatusOption :=
  (STATUS_OPTIONS.find? (fun s => s.value = statusValue)).getD
    ⟨"new", "Nuevo", "bg-blue-500", "A"⟩

/-- A linked marketplace integration record (read from the private
marketplace_integrations collection). -/
structure Marketplace where
  id          : String
  marketplace : String
  nickname    : String
  deriving Repr, DecidableEq

/-- The appId constant: the injected __app_id global is out of scope, so the
fallback value from the source is used. -/
def appId : String := "default-app-id"

/-- getOrderCollectionRef (lines 1010-1014): null unless both db and userId
are present, otherwise the public orders collection path. -/
def getOrderCollectionRef (db : Option Unit) (userId : Option String) :
    Option String :=
  match db, userId with
  | some _, some _ => some ("artifacts/" ++ appId ++ "/public/data/orders")
  | _, _ => none

/-- The per-document mapping of the onSnapshot(orderRef) callback
(lines 1041-1046): spread the data, then force order_date to a Date —
new Date(order_date.seconds * 1000) when the field is present, new Date()
(the processing time, called now here) when it is absent. -/
def toOrder (now : Nat) (d : Doc) : Order :=
  { id := d.id
    order_id := d.data.order_id
    customer_name := d.data.customer_name
    marketplace := d.data.marketplace
    status := d.data.status
    order_date :=
      match d.data.order_date with
      | some ts => ts.seconds * 1000
      | none => now }

/-- Processing one snapshot delivery: setOrders(snapshot.docs.map(...)),
which replaces the cache wholesale with the mapped documents. -/
def processSnapshot (now : Nat) (docs : List Doc) : List Order :=
  docs.map (toOrder now)

/-- The cache after a sequence of snapshot deliveries, each delivery being a
processing time paired with the delivered documents.  Every delivery
replaces the previous cache state. -/
def applyDeliveries (init : List Order) (ds : List (Nat × List Doc)) :
    List Order :=
  ds.foldl (fun _ d => processSnapshot d.1 d.2) init

/-- The sort relation of the filteredOrders comparator
(a, b) => b.order_date.getTime() - a.order_date.getTime():
a precedes b when the date of b is at most the date of a (descending). -/
def dateGE (a b : Order) : Prop := b.order_date ≤ a.order_date

instance : DecidableRel dateGE :=
  fun a b => inferInstanceAs (Decidable (b.order_date ≤ a.order_date))

instance : IsTotal Order dateGE :=
  ⟨fun a b => le_total b.order_date a.order_date⟩

instance : IsTrans Order dateGE :=
  ⟨fun _ _ _ hab hbc => le_trans hbc hab⟩

/-- The in-place Array.prototype.sort with the date comparator, embedded as
the stable sort with respect to dateGE (the ECMAScript sort is stable, and a
stable sort for a total preorder has a unique result). -/
def sortByDateDesc (l : List Order) : List Order := List.insertionSort dateGE l

/-- The only exception the embedded code can throw: the TypeError raised by
reading a property of undefined or null. -/
inductive JsError
  | typeError
  deriving Repr, DecidableEq

instance {ε α : Type} [DecidableEq ε] [DecidableEq α] : DecidableEq (Except ε α)
  | .ok a, .ok b =>
      if h : a = b then .isTrue (by rw [h]) else .isFalse (by simp [h])
  | .error a, .error b =>
      if h : a = b then .isTrue (by rw [h]) else .isFalse (by simp [h])
  | .ok _, .error _ => .isFalse (by simp)
  | .error _, .ok _ => .isFalse (by simp)

/-- String.prototype.toLowerCase, embedded character by character (the code
only ever compares ASCII identifiers, customer names and marketplace
names). -/
def jsToLower (s : String) : String := ⟨s.data.map Char.toLower⟩

/-- Character-list prefix match used by the substring test. -/
def subAt : List Char → List Char → Bool
  | [], _ => true
  | _ :: _, [] => false
  | c :: cs, d :: ds => c = d && subAt cs ds

/-- Substring search on character lists (needle, then haystack). -/
def subSearch (needle : List Char) : List Char → Bool
  | [] => needle.isEmpty
  | d :: ds => subAt needle (d :: ds) || subSearch needle ds

/-- String.prototype.includes: the needle occurs somewhere in the haystack. -/
def strHasSub (hay needle : String) : Bool :=
  subSearch needle.toList hay.toList

/-- field.toLowerCase().includes(searchLower) on a possibly-absent field:
calling toLowerCase on undefined throws a TypeError. -/
def lowerHasSub (field : Option String) (searchLower : String) :
    Except JsError Bool :=
  match field with
  | none => .error .typeError
  | some s => .ok (strHasSub (jsToLower s) searchLower)

/-- The search predicate of filteredOrders (lines 1076-1080):
order_id.toLowerCase().includes(searchLower) ||
customer_name.toLowerCase().includes(searchLower) ||
marketplace.toLowerCase().includes(searchLower),
with the JavaScript short-circuit evaluation order. -/
def matchesSearch (searchLower : String) (o : Order) : Except JsError Bool := do
  let a ← lowerHasSub o.order_id searchLower
  if a then return true
  let b ← lowerHasSub o.customer_name searchLower
  if b then return true
  lowerHasSub o.marketplace searchLower

/-- Array.prototype.filter with a predicate that may throw: elements are
tested left to right and the first exception aborts the whole filter. -/
def filterExcept (p : α → Except ε Bool) : List α → Except ε (List α)
  | [] => .ok []
  | a :: as => do
    let b ← p a
    let rest ← filterExcept p as
    return if b then a :: rest else rest

/-- Step 1 of filteredOrders: filter === all keeps the orders array itself
(an alias, not a copy), any other filter builds a new filtered array. -/
def selectByFilter (orders : List Order) (filter : String) : List Order :=
  if filter = "all" then orders
  else orders.filter (fun o => o.status = some filter)

/-- Step 2 of filteredOrders: an empty search term is falsy and skips the
search entirely; a non-empty term is lowercased once and matched. -/
def applySearch (searchTerm : String) (l : List Order) :
    Except JsError (List Order) :=
  if searchTerm = "" then .ok l
  else filterExcept (matchesSearch (jsToLower searchTerm)) l

/-- Result of evaluating the filteredOrders memo: the returned sequence and
the orders state array as it stands after evaluation.  The two differ from
the pre-evaluation array exactly when the final in-place sort ran on the
orders array itself, which happens when the status filter is all (step 1
aliased) and the search term is empty (step 2 did not replace the alias). -/
structure ViewResult where
  result      : List Order
  ordersAfter : List Order
  deriving Repr, DecidableEq

/-- filteredOrders (lines 1067-1086): status filter, then search, then the
in-place sort by order_date descending. -/
def filteredOrders (orders : List Order) (filter searchTerm : String) :
    Except JsError ViewResult :=
  match applySearch searchTerm (selectByFilter orders filter) with
  | .error e => .error e
  | .ok searched =>
      let sorted := sortByDateDesc searched
      .ok ⟨sorted, if filter = "all" ∧ searchTerm = "" then sorted else orders⟩

/-- The badge count rendered for one status option in the filter select
(line 1260): orders.filter(o => o.status === s.value).length. -/
def badgeCount (orders : List Order) (v : String) : Nat :=
  (orders.filter (fun o => o.status = some v)).length

/-- The adapter update issued by handleUpdateStatus: updateDoc(docRef,
{ status, updated_by, updated_at }). -/
structure UpdateAction where
  path       : String
  orderId    : String
  status     : String
  updated_by : Option String
  updated_at : Nat
  deriving Repr, DecidableEq

/-- handleUpdateStatus (lines 1090-1104).  The document reference is built
from getOrderCollectionRef().path outside the try block, so a null
collection reference (db or userId absent) throws a TypeError that escapes
the function; otherwise the update call is issued with the new status and
the actor and timestamp stamps. -/
def handleUpdateStatus (db : Option Unit) (userId : Option String)
    (now : Nat) (orderId newStatus : String) : Except JsError UpdateAction :=
  match getOrderCollectionRef db userId with
  | none => .error .typeError
  | some p =>
      .ok { path := p, orderId := orderId, status := newStatus,
            updated_by := userId, updated_at := now }

/-- The onChange handler of the per-order status select (lines 1298-1308):
every STATUS_OPTIONS value is offered for every order, regardless of the
current status of the order, and selecting one calls
handleUpdateStatus(order.id, target). -/
def statusSelectOnChange (db : Option Unit) (userId : Option String)
    (now : Nat) (order : Order) (target : String) :
    Except JsError UpdateAction :=
  handleUpdateStatus db userId now order.id target

/-- The adapter delete issued by handleDeleteOrder. -/
structure DeleteAction where
  path    : String
  orderId : String
  deriving Repr, DecidableEq

/-- handleDeleteOrder (lines 1106-1118): an unconfirmed dialog returns early
with no action; otherwise the document reference is again built from
getOrderCollectionRef().path outside the try block, throwing on a null
reference, and the delete call is issued otherwise. -/
def handleDeleteOrder (db : Option Unit) (userId : Option String)
    (confirmed : Bool) (orderId : String) :
    Except JsError (Option DeleteAction) :=
  if !confirmed then .ok none
  else
    match getOrderCollectionRef db userId with
    | none => .error .typeError
    | some p => .ok (some ⟨p, orderId⟩)

/-- The AddOrderForm form state. -/
structure FormData where
  order_id      : String
  customer_name : String
  marketplace   : String
  amount        : String
  status        : String
  deriving Repr, DecidableEq

/-- The initial AddOrderForm state (lines 1124-1130): all text fields empty
and status defaulting to new. -/
def initialFormData : FormData :=
  { order_id := "", customer_name := "", marketplace := "", amount := "",
    status := "new" }

/-- The record handleAddOrder forwards to addDoc (lines 1140-1151): the
spread form data with the stamps, the marketplace copied to source, the
fallback generated order id when the field is empty (falsy), and the
simulated items.  parseFloat on the amount is floating point and no claim
concerns it, so the raw amount string is carried through. -/
structure NewOrderRecord where
  order_id      : String
  customer_name : String
  marketplace   : String
  amount        : String
  status        : String
  order_date    : Nat
  created_by    : Option String
  updated_by    : Option String
  source        : String
  items         : List (String × Nat)
  deriving Repr, DecidableEq

/-- Builds the newOrder object of handleAddOrder from the form data, the
current actor, the current time, and the generated random suffix. -/
def buildNewOrder (userId : Option String) (now : Nat) (fd : FormData)
    (randId : String) : NewOrderRecord :=
  { order_id := if fd.order_id = "" then "ORD-" ++ randId else fd.order_id
    customer_name := fd.customer_name
    marketplace := fd.marketplace
    amount := fd.amount
    status := fd.status
    order_date := now
    created_by := userId
    updated_by := userId
    source := fd.marketplace
    items := [("Producto X", 1)] }

/-- Outcome of a creation attempt through AddOrderForm. -/
inductive CreateOutcome
  /-- Zero linked marketplaces: the component renders the rejection notice
  instead of the form, so no submission and no adapter call is possible. -/
  | rejectedNoMarketplaces
  /-- addDoc was issued with this record. -/
  | added (rec : NewOrderRecord)
  /-- addDoc threw inside the try block (null collection reference) and the
  catch handler consumed the exception; no adapter call was made. -/
  | errorCaught
  deriving Repr, DecidableEq

/-- handleAddOrder (lines 1137-1164): addDoc(getOrderCollectionRef(),
newOrder) inside try/catch.  A null collection reference makes addDoc throw
synchronously before contacting the adapter, and the catch handler consumes
the exception. -/
def handleAddOrder (db : Option Unit) (userId : Option String) (now : Nat)
    (fd : FormData) (randId : String) : CreateOutcome :=
  match getOrderCollectionRef db userId with
  | none => .errorCaught
  | some _ => .added (buildNewOrder userId now fd randId)

/-- The creation operation as exposed by AddOrderForm (lines 1166-1199):
with zero linked marketplaces the component renders the warning paragraph
and no form, so handleAddOrder is unreachable; otherwise submitting runs
handleAddOrder. -/
def createOrder (linked : List Marketplace) (db : Option Unit)
    (userId : Option String) (now : Nat) (fd : FormData) (randId : String) :
    CreateOutcome :=
  if linked.length = 0 then .rejectedNoMarketplaces
  else handleAddOrder db userId now fd randId

/-! Concrete demonstration values used by witnesses and counterexamples. -/

/-- An order with the earlier timestamp. -/
def oEarly : Order := ⟨"a", some "A1", some "Ana", some "ML", some "new", 1000⟩

/-- An order with the later timestamp. -/
def oLate : Order := ⟨"b", some "B2", some "Bea", some "AM", some "shipped", 2000⟩

/-- An order in the terminal shipped state. -/
def oShipped : Order := ⟨"x1", some "X1", some "Cli", some "ML", some "shipped", 500⟩

/-- An order in the terminal cancelled state. -/
def oCancelled : Order := ⟨"x2", some "X2", some "Dan", some "AM", some "cancelled", 600⟩

/-- A record that lacks the order_id searchable field but carries a
matching marketplace. -/
def oNoOrderId : Order := ⟨"c", none, some "Carla", some "Amazon", some "new", 100⟩

/-- Two records with equal timestamps whose ids are in decreasing order. -/
def oTieB : Order := ⟨"b", some "B", some "Beto", some "ML", some "new", 4000⟩

/-- See oTieB. -/
def oTieA : Order := ⟨"a", some "A", some "Alba", some "AM", some "new", 4000⟩

/-- A form draft whose status select was set to cancelled. -/
def fdCancelled : FormData := ⟨"X9", "Cli", "ML", "10", "cancelled"⟩

/-- A linked marketplace. -/
def mkDemo : Marketplace := ⟨"m1", "ML", "main"⟩

/-- A delivered document with a timestamp. -/
def dOld : Doc := ⟨"o", ⟨some "O1", some "Omar", some "ML", some "new", some ⟨2⟩⟩⟩

/-- A delivered document without a timestamp. -/
def dMiss : Doc := ⟨"m", ⟨some "M1", some "Mia", some "AM", some "preparing", none⟩⟩

/-- A small cache whose statuses follow the lifecycle state set. -/
def demoCache : List Order :=
  [ ⟨"1", some "P1", some "Ana", some "ML", some "new", 10⟩,
    ⟨"2", some "P2", some "Bea", some "ML", some "new", 20⟩,
    ⟨"3", some "P3", some "Cli", some "AM", some "preparing", 30⟩,
    ⟨"4", some "P4", some "Dan", some "AM", some "shipped", 40⟩ ]

/-! Helper lemmas shared by the claim theorems. -/

/-- Folding a function that ignores its accumulator computes the image of
the last element. -/
theorem foldlReplaceLast {α β : Type} (g : β → α) (ds : List β) (x : β)
    (h : ds.getLast? = some x) :
    ∀ init, ds.foldl (fun _ d => g d) init = g x := by
  induction ds with
  | nil => cases h
  | cons d t ih =>
      intro init
      cases t with
      | nil => simp at h; simp [h]
      | cons d₂ t₂ =>
          rw [List.getLast?_cons_cons] at h
          rw [List.foldl_cons]
          exact ih h (g d)

/-- Inserting into a list preserves the sublist of records carrying any
fixed order_date key, up to prepending the inserted record when it carries
that key itself: the skipped prefix of an ordered insert consists of
records with strictly larger dates. -/
theorem filterEq_orderedInsert (x : Order) (l : List Order) (k : Nat) :
    (List.orderedInsert dateGE x l).filter (fun o => o.order_date == k)
      = if x.order_date == k
        then x :: l.filter (fun o => o.order_date == k)
        else l.filter (fun o => o.order_date == k) := by
  induction l with
  | nil => simp [List.orderedInsert, List.filter_cons]
  | cons b t ih =>
      rw [List.orderedInsert]
      by_cases hr : dateGE x b
      · rw [if_pos hr, List.filter_cons, List.filter_cons]
      · rw [if_neg hr, List.filter_cons, ih, List.filter_cons]
        by_cases hx : x.order_date == k
        · have hxk : x.order_date = k := by simpa using hx
          have hlt : x.order_date < b.order_date := by
            simpa [dateGE, Nat.not_le] using hr
          have hbk : (b.order_date == k) = false := by
            simp only [beq_eq_false_iff_ne, ne_eq]
            omega
          simp [hx, hbk]
        · simp [hx]

/-- The stable sort keeps every equal-date class in its original relative
order: filtering the sorted list by any fixed date gives the same list as
filtering the input. -/
theorem filterEq_insertionSort (l : List Order) (k : Nat) :
    (List.insertionSort dateGE l).filter (fun o => o.order_date == k)
      = l.filter (fun o => o.order_date == k) := by
  induction l with
  | nil => rfl
  | cons x t ih =>
      rw [List.insertionSort, filterEq_orderedInsert, List.filter_cons, ih]

/-- C1: after processing a sequence of snapshot deliveries, the cache equals
exactly the mapping of the latest delivery: the cache is the per-document
image of the last snapshot, its id sequence is the id sequence of the last
delivery (so exactly one entry per delivered id and none for absent ids),
every delivered document appears with its delivered fields, and every cache
entry comes from a delivered document. -/
theorem cache_reflects_latest_delivery (init : List Order)
    (ds : List (Nat × List Doc)) (lastNow : Nat) (lastDocs : List Doc)
    (h : ds.getLast? = some (lastNow, lastDocs)) :
    applyDeliveries init ds = processSnapshot lastNow lastDocs ∧
    (applyDeliveries init ds).map (fun o => o.id)
      = lastDocs.map (fun d => d.id) ∧
    (∀ d ∈ lastDocs, toOrder lastNow d ∈ applyDeliveries init ds) ∧
    (∀ o ∈ applyDeliveries init ds,
        ∃ d ∈ lastDocs, o = toOrder lastNow d) := by
  have he : applyDeliveries init ds = processSnapshot lastNow lastDocs := by
    unfold applyDeliveries
    exact foldlReplaceLast (fun d : Nat × List Doc => processSnapshot d.1 d.2)
      ds (lastNow, lastDocs) h init
  refine ⟨he, ?_, ?_, ?_⟩ <;> rw [he]
  · simp only [processSnapshot, List.map_map]
    exact List.map_congr_left (fun d _ => rfl)
  · intro d hd
    exact List.mem_map_of_mem _ hd
  · intro o ho
    rcases List.mem_map.1 ho with ⟨d, hd, rfl⟩
    exact ⟨d, hd, rfl⟩

/-- Witness for C1 at a concrete two-delivery run. -/
theorem cache_reflects_latest_delivery_witness :
    applyDeliveries [] [(10, [dOld]), (20, [dMiss, dOld])]
      = processSnapshot 20 [dMiss, dOld] ∧
    (applyDeliveries [] [(10, [dOld]), (20, [dMiss, dOld])]).map (fun o => o.id)
      = [dMiss, dOld].map (fun d => d.id) ∧
    (∀ d ∈ [dMiss, dOld],
        toOrder 20 d ∈ applyDeliveries [] [(10, [dOld]), (20, [dMiss, dOld])]) ∧
    (∀ o ∈ applyDeliveries [] [(10, [dOld]), (20, [dMiss, dOld])],
        ∃ d ∈ [dMiss, dOld], o = toOrder 20 d) :=
  cache_reflects_latest_delivery [] [(10, [dOld]), (20, [dMiss, dOld])] 20
    [dMiss, dOld] (by decide)

/-- Evaluating the view with the filter at all and an empty search term
returns the stably sorted cache and leaves the orders array aliased to that
sorted result. -/
theorem filteredOrders_all_empty (orders : List Order) :
    filteredOrders orders "all" ""
      = .ok ⟨sortByDateDesc orders, sortByDateDesc orders⟩ := rfl

/-- C2 counterexample: with the status filter at all and an empty search
term, evaluating the derived view sorts the orders state array in place.
Starting from a cache holding the earlier order before the later one, the
orders array after evaluation is reordered, so evaluation mutates the
cache. -/
theorem view_purity_counterexample :
    filteredOrders [oEarly, oLate] "all" ""
      = .ok ⟨[oLate, oEarly], [oLate, oEarly]⟩ ∧
    ([oLate, oEarly] : List Order) ≠ [oEarly, oLate] := by decide

/-- C2 (amended): the derived view is a deterministic function of the cache
and the filter/search state — re-evaluating on the post-evaluation state
yields the same ordered result — but evaluation is not mutation free: when
the filter is all and the search term is empty the in-place sort reorders
the orders array (always to a permutation of it); for every other
filter/search state the array is untouched. -/
theorem view_deterministic_but_sorts_in_place (orders : List Order)
    (f s : String) (v : ViewResult)
    (h : filteredOrders orders f s = .ok v) :
    filteredOrders v.ordersAfter f s = .ok ⟨v.result, v.ordersAfter⟩ ∧
    v.ordersAfter.Perm orders ∧
    (¬(f = "all" ∧ s = "") → v.ordersAfter = orders) := by
  by_cases hc : f = "all" ∧ s = ""
  · obtain ⟨hf, hs⟩ := hc
    subst hf; subst hs
    rw [filteredOrders_all_empty] at h
    injection h with h
    subst h
    have hsorted : sortByDateDesc (sortByDateDesc orders) = sortByDateDesc orders :=
      List.Sorted.insertionSort_eq (List.sorted_insertionSort dateGE orders)
    refine ⟨?_, List.perm_insertionSort dateGE orders,
      fun hn => (hn ⟨rfl, rfl⟩).elim⟩
    show filteredOrders (sortByDateDesc orders) "all" ""
      = .ok ⟨sortByDateDesc orders, sortByDateDesc orders⟩
    rw [filteredOrders_all_empty, hsorted]
  · cases hsa : applySearch s (selectByFilter orders f) with
    | error e => rw [filteredOrders, hsa] at h; cases h
    | ok searched =>
        rw [filteredOrders, hsa] at h
        simp only [if_neg hc] at h
        injection h with h
        subst h
        refine ⟨?_, List.Perm.refl orders, fun _ => rfl⟩
        rw [filteredOrders, hsa]
        simp only [if_neg hc]

/-- Witness for C2 (amended) at a concrete cache. -/
theorem view_deterministic_but_sorts_in_place_witness :
    filteredOrders (ViewResult.ordersAfter ⟨[oLate, oEarly], [oLate, oEarly]⟩) "all" ""
      = .ok ⟨ViewResult.result ⟨[oLate, oEarly], [oLate, oEarly]⟩,
             ViewResult.ordersAfter ⟨[oLate, oEarly], [oLate, oEarly]⟩⟩ ∧
    (ViewResult.ordersAfter ⟨[oLate, oEarly], [oLate, oEarly]⟩).Perm [oEarly, oLate] ∧
    (¬("all" = "all" ∧ "" = "") →
      ViewResult.ordersAfter ⟨([oLate, oEarly] : List Order), [oLate, oEarly]⟩ = [oEarly, oLate]) :=
  view_deterministic_but_sorts_in_place [oEarly, oLate] "all" ""
    ⟨[oLate, oEarly], [oLate, oEarly]⟩ (by decide)

/-- C3 counterexample: for an order whose status is the terminal shipped
state, selecting the preparing target issues the adapter update (the status
patch is forwarded), so the attempt is applied rather than rejected with an
InvalidTransition condition — no transition validation exists in
handleUpdateStatus. -/
theorem advance_from_terminal_counterexample :
    oShipped.status = some "shipped" ∧
    statusSelectOnChange (some ()) (some "u1") 7 oShipped "preparing"
      = .ok ⟨"artifacts/default-app-id/public/data/orders", "x1",
             "preparing", some "u1", 7⟩ := by decide

/-- C3 (amended): advancing an order in a terminal state (shipped or
cancelled) to any target offered by the status select issues the adapter
update unconditionally, setting the chosen status and stamping the actor
and timestamp; no InvalidTransition condition is raised and no validation
against the current status happens. -/
theorem advance_from_terminal_updates (db : Unit) (u : String) (now : Nat)
    (o : Order) (target : String)
    (_hterm : o.status = some "shipped" ∨ o.status = some "cancelled")
    (_htarget : target ∈ STATUS_OPTIONS.map (fun s => s.value)) :
    statusSelectOnChange (some db) (some u) now o target
      = .ok { path := "artifacts/" ++ appId ++ "/public/data/orders",
              orderId := o.id, status := target, updated_by := some u,
              updated_at := now } := rfl

/-- Witness for C3 (amended) at a cancelled order. -/
theorem advance_from_terminal_updates_witness :
    statusSelectOnChange (some ()) (some "u2") 9 oCancelled "new"
      = .ok { path := "artifacts/" ++ appId ++ "/public/data/orders",
              orderId := oCancelled.id, status := "new",
              updated_by := some "u2", updated_at := 9 } :=
  advance_from_terminal_updates () "u2" 9 oCancelled "new" (Or.inr rfl)
    (by decide)

/-- C4 counterexample: with the session not ready (db and userId absent),
handleUpdateStatus and handleDeleteOrder dereference the null collection
reference outside their try blocks, so both raise a TypeError that escapes
the handler instead of returning as a clean no-op. -/
theorem mutation_unready_counterexample :
    handleUpdateStatus none none 3 "o9" "new" = .error .typeError ∧
    handleDeleteOrder none none true "o9" = .error .typeError := by decide

/-- C4 (amended): when the session is not ready (db or userId absent) the
collection reference is unresolvable and none of the three mutations
performs an adapter call; create fails fast with the exception caught
inside its try block, but advanceStatus and remove throw an unhandled
TypeError from the null reference dereference that sits outside their try
blocks. -/
theorem mutations_unready_no_adapter_call (db : Option Unit)
    (userId : Option String) (now : Nat) (fd : FormData)
    (rid oid tgt : String) (h : db = none ∨ userId = none) :
    getOrderCollectionRef db userId = none ∧
    handleAddOrder db userId now fd rid = .errorCaught ∧
    handleUpdateStatus db userId now oid tgt = .error .typeError ∧
    handleDeleteOrder db userId true oid = .error .typeError := by
  have hg : getOrderCollectionRef db userId = none := by
    rcases h with h | h
    · subst h; cases userId <;> rfl
    · subst h; cases db <;> rfl
  refine ⟨hg, ?_, ?_, ?_⟩
  · rw [handleAddOrder, hg]
  · rw [handleUpdateStatus, hg]
  · rw [handleDeleteOrder]
    simp only [Bool.not_true, Bool.false_eq_true, if_false, hg]

/-- Witness for C4 (amended) with an absent database handle. -/
theorem mutations_unready_no_adapter_call_witness :
    getOrderCollectionRef none (some "u") = none ∧
    handleAddOrder none (some "u") 0 initialFormData "r" = .errorCaught ∧
    handleUpdateStatus none (some "u") 0 "o1" "new" = .error .typeError ∧
    handleDeleteOrder none (some "u") true "o1" = .error .typeError :=
  mutations_unready_no_adapter_call none (some "u") 0 initialFormData "r"
    "o1" "new" (Or.inl rfl)

/-- Lexicographic comparison of character lists by code point, used to state
the id tiebreak the spec asks for. -/
def lexLe : List Char → List Char → Bool
  | [], _ => true
  | _ :: _, [] => false
  | c :: cs, d :: ds =>
      c.toNat < d.toNat || (c = d && lexLe cs ds)

/-- The ordering demanded by the spec sentence behind claim C5, stated from
the words of the spec for comparison with the code: most recent first, and
equal timestamps ordered by record id. -/
def dateThenIdGE (a b : Order) : Prop :=
  b.order_date < a.order_date ∨
    (a.order_date = b.order_date ∧ lexLe a.id.data b.id.data = true)

instance : DecidableRel dateThenIdGE := fun _ _ =>
  inferInstanceAs (Decidable (_ ∨ _))

/-- The sorted view the spec sentence would require. -/
def sortSpecDateThenId (l : List Order) : List Order :=
  List.insertionSort dateThenIdGE l

/-- C5 counterexample: on a cache holding two records with equal timestamps
whose ids are in decreasing order, the view keeps the cache order (the
stable sort leaves ties untouched), while the id tiebreak the claim states
would have to swap them; the produced sequence differs from the id-broken
one. -/
theorem sort_tiebreak_counterexample :
    oTieB.order_date = oTieA.order_date ∧
    filteredOrders [oTieB, oTieA] "all" ""
      = .ok ⟨[oTieB, oTieA], [oTieB, oTieA]⟩ ∧
    sortSpecDateThenId [oTieB, oTieA] = [oTieA, oTieB] ∧
    ([oTieB, oTieA] : List Order) ≠ [oTieA, oTieB] := by decide

/-- C5 (amended): the derived view is sorted most recent first by
order_date (every record is followed only by records with at most its
timestamp), it is a permutation of the selected records, and records with
equal timestamps keep their relative order from the cache (the sort is
stable): no id tiebreak takes place. -/
theorem view_sorted_date_desc_stable (orders : List Order) (f s : String)
    (v : ViewResult) (h : filteredOrders orders f s = .ok v) :
    List.Sorted dateGE v.result ∧
    ∃ sel, applySearch s (selectByFilter orders f) = .ok sel ∧
      v.result.Perm sel ∧
      ∀ k, v.result.filter (fun o => o.order_date == k)
            = sel.filter (fun o => o.order_date == k) := by
  cases hsa : applySearch s (selectByFilter orders f) with
  | error e => rw [filteredOrders, hsa] at h; cases h
  | ok searched =>
      rw [filteredOrders, hsa] at h
      have hres : v.result = sortByDateDesc searched := by
        cases h₂ : (if f = "all" ∧ s = "" then sortByDateDesc searched
            else orders)
        all_goals
          injection h with h
          subst h
          rfl
      refine ⟨?_, searched, rfl, ?_, ?_⟩
      · rw [hres]
        exact List.sorted_insertionSort dateGE searched
      · rw [hres]
        exact List.perm_insertionSort dateGE searched
      · intro k
        rw [hres]
        exact filterEq_insertionSort searched k

/-- Witness for C5 (amended) on the tied cache. -/
theorem view_sorted_date_desc_stable_witness :
    List.Sorted dateGE (ViewResult.result ⟨[oTieB, oTieA], [oTieB, oTieA]⟩) ∧
    ∃ sel, applySearch "" (selectByFilter [oTieB, oTieA] "all") = .ok sel ∧
      (ViewResult.result ⟨[oTieB, oTieA], [oTieB, oTieA]⟩).Perm sel ∧
      ∀ k, (ViewResult.result ⟨[oTieB, oTieA], [oTieB, oTieA]⟩).filter
              (fun o => o.order_date == k)
            = sel.filter (fun o => o.order_date == k) :=
  view_sorted_date_desc_stable [oTieB, oTieA] "all" ""
    ⟨[oTieB, oTieA], [oTieB, oTieA]⟩ (by decide)

/-- C6 counterexample: a record without an order_id but with a marketplace
that matches the non-empty search term makes the view evaluation throw a
TypeError (toLowerCase on undefined) instead of treating the absent field
as a non-match and matching on the marketplace. -/
theorem search_missing_field_counterexample :
    oNoOrderId.order_id = none ∧
    oNoOrderId.marketplace = some "Amazon" ∧
    strHasSub (jsToLower "Amazon") (jsToLower "AMA") = true ∧
    filteredOrders [oNoOrderId] "all" "AMA" = .error .typeError := by decide

/-- C6 (amended): search matching is case-insensitive substring matching
over the three searchable fields and is insensitive to the case of the
search term, and a record may match on a later field after earlier fields
fail — but only for the fields that actually get evaluated: a record whose
order_id is absent always throws on a non-empty search term instead of
being treated as a non-match on that field, while a record whose order_id
already matches never evaluates (and thus tolerates missing) later
fields. -/
theorem search_needs_evaluated_fields :
    (∀ (o : Order) (a b c t : String), o.order_id = some a →
        o.customer_name = some b → o.marketplace = some c →
        matchesSearch t o
          = .ok (strHasSub (jsToLower a) t || strHasSub (jsToLower b) t ||
                 strHasSub (jsToLower c) t)) ∧
    (∀ (o : Order) (a t : String), o.order_id = some a →
        strHasSub (jsToLower a) t = true → matchesSearch t o = .ok true) ∧
    (∀ (o : Order) (t : String), o.order_id = none →
        matchesSearch t o = .error .typeError) ∧
    (∀ (orders : List Order) (f t₁ t₂ : String),
        jsToLower t₁ = jsToLower t₂ →
        filteredOrders orders f t₁ = filteredOrders orders f t₂) := by
  refine ⟨?_, ?_, ?_, ?_⟩
  · intro o a b c t ha hb hc
    simp only [matchesSearch, lowerHasSub, ha, hb, hc]
    cases strHasSub (jsToLower a) t <;> cases strHasSub (jsToLower b) t <;>
      cases strHasSub (jsToLower c) t <;> rfl
  · intro o a t ha hm
    simp only [matchesSearch, lowerHasSub, ha, hm]
    rfl
  · intro o t ho
    simp only [matchesSearch, lowerHasSub, ho]
    rfl
  · intro orders f t₁ t₂ h
    have hdata : t₁.data.map Char.toLower = t₂.data.map Char.toLower := by
      have := congrArg String.data h
      simpa [jsToLower] using this
    have hempty : ∀ t : String, t.data.map Char.toLower = [] → t = "" := by
      intro t ht
      cases t with
      | mk d =>
          cases d with
          | nil => rfl
          | cons c cs => simp at ht
    by_cases h1 : t₁ = ""
    · have h2 : t₂ = "" := by
        apply hempty
        rw [← hdata, h1]
        rfl
      subst h1; subst h2; rfl
    · have h2 : ¬ t₂ = "" := by
        intro h2
        exact h1 (hempty t₁ (by rw [hdata, h2]; rfl))
      simp only [filteredOrders, applySearch, if_neg h1, if_neg h2, h, h1, h2,
        and_false, eq_self_iff_true]

/-- Witness for C6 (amended) at concrete records and terms. -/
theorem search_needs_evaluated_fields_witness :
    matchesSearch (jsToLower "ana") oEarly
      = .ok (strHasSub (jsToLower "A1") (jsToLower "ana") ||
             strHasSub (jsToLower "Ana") (jsToLower "ana") ||
             strHasSub (jsToLower "ML") (jsToLower "ana")) ∧
    matchesSearch "a1" oEarly = .ok true ∧
    matchesSearch "zz" oNoOrderId = .error .typeError ∧
    filteredOrders [oEarly] "all" "ANA" = filteredOrders [oEarly] "all" "ana" :=
  ⟨search_needs_evaluated_fields.1 oEarly "A1" "Ana" "ML" (jsToLower "ana")
      rfl rfl rfl,
   search_needs_evaluated_fields.2.1 oEarly "A1" "a1" rfl (by decide),
   search_needs_evaluated_fields.2.2.1 oNoOrderId "zz" rfl,
   search_needs_evaluated_fields.2.2.2 [oEarly] "all" "ANA" "ana" (by decide)⟩

/-- C7: with zero linked marketplaces, AddOrderForm renders the rejection
notice instead of the creation form, so the creation attempt is declined
locally (the ValidationRejected condition of the spec) and no adapter
create call can occur. -/
theorem create_without_marketplaces_rejected (db : Option Unit)
    (userId : Option String) (now : Nat) (fd : FormData) (rid : String)
    (linked : List Marketplace) (h : linked = []) :
    createOrder linked db userId now fd rid = .rejectedNoMarketplaces ∧
    ∀ rec, createOrder linked db userId now fd rid ≠ .added rec := by
  subst h
  refine ⟨rfl, fun rec hc => ?_⟩
  cases hc

/-- Witness for C7 with an empty marketplace list. -/
theorem create_without_marketplaces_rejected_witness :
    createOrder [] (some ()) (some "u") 0 initialFormData "r"
      = .rejectedNoMarketplaces ∧
    ∀ rec, createOrder [] (some ()) (some "u") 0 initialFormData "r"
      ≠ .added rec :=
  create_without_marketplaces_rejected (some ()) (some "u") 0 initialFormData
    "r" [] rfl

/-- C8 counterexample: the status select of the creation form lets the user
submit any lifecycle status; a draft whose select is set to cancelled is
accepted and forwarded to the adapter with status cancelled, not the start
state new. -/
theorem create_status_counterexample :
    createOrder [mkDemo] (some ()) (some "u") 5 fdCancelled "42"
      = .added (buildNewOrder (some "u") 5 fdCancelled "42") ∧
    (buildNewOrder (some "u") 5 fdCancelled "42").status = "cancelled" ∧
    "cancelled" ≠ "new" := by decide

/-- C8 (amended): every accepted create forwards exactly the status held in
the form data — new is only the default of a fresh form, while the status
select lets any lifecycle state be chosen as the initial status. -/
theorem created_status_follows_form (linked : List Marketplace)
    (db : Option Unit) (userId : Option String) (now : Nat) (fd : FormData)
    (rid : String) (rec : NewOrderRecord)
    (h : createOrder linked db userId now fd rid = .added rec) :
    rec.status = fd.status ∧ initialFormData.status = "new" := by
  refine ⟨?_, rfl⟩
  rw [createOrder] at h
  by_cases hl : linked.length = 0
  · rw [if_pos hl] at h; cases h
  · rw [if_neg hl, handleAddOrder] at h
    cases hg : getOrderCollectionRef db userId with
    | none => rw [hg] at h; cases h
    | some p =>
        rw [hg] at h
        injection h with h
        rw [← h]
        rfl

/-- Witness for C8 (amended) at the cancelled draft. -/
theorem created_status_follows_form_witness :
    (buildNewOrder (some "u") 5 fdCancelled "42").status = fdCancelled.status ∧
    initialFormData.status = "new" :=
  created_status_follows_form [mkDemo] (some ()) (some "u") 5 fdCancelled "42"
    (buildNewOrder (some "u") 5 fdCancelled "42") (by decide)

/-- C9: the per-state badge counts are the pure projection
orders.filter(o => o.status === value).length over the cache, and for a
cache whose records all carry a status from the lifecycle state set the
five counts sum to the total record count. -/
theorem badge_counts_sum_to_total (orders : List Order)
    (h : ∀ o ∈ orders, ∃ s ∈ STATUS_OPTIONS, o.status = some s.value) :
    (STATUS_OPTIONS.map (fun s => badgeCount orders s.value)).sum
      = orders.length := by
  induction orders with
  | nil => decide
  | cons o rest ih =>
      obtain ⟨s, hs, ho⟩ := h o (List.mem_cons_self o rest)
      have ih' := ih (fun x hx => h x (List.mem_cons_of_mem o hx))
      simp only [STATUS_OPTIONS, List.mem_cons, List.not_mem_nil, or_false] at hs
      rcases hs with rfl | rfl | rfl | rfl | rfl <;>
      · simp only [STATUS_OPTIONS, List.map_cons, List.map_nil, List.sum_cons,
          List.sum_nil, badgeCount, List.filter_cons, ho] at ih' ⊢
        simp only [List.length_cons]
        simp
        omega

/-- Witness for C9 on the demonstration cache with statuses new, new,
preparing, shipped: the counts sum to four. -/
theorem badge_counts_sum_to_total_witness :
    (STATUS_OPTIONS.map (fun s => badgeCount demoCache s.value)).sum
      = demoCache.length :=
  badge_counts_sum_to_total demoCache (by decide)

/-- C10: a delivered record lacking order_date is cached with order_date
equal to the processing time (new Date()), a record carrying a timestamp is
cached with its seconds component times one thousand, timestamp-bearing
records whose instants lie in the past get cached dates before the
processing time, and in the derived view (no filter, no search) every
record dated at the processing time — in particular the missing-timestamp
record — precedes every record with an earlier date, so the
missing-timestamp record sorts as most recent. -/
theorem missing_timestamp_defaults_to_now (now : Nat) (docs : List Doc)
    (d : Doc) (hd : d ∈ docs) (hmiss : d.data.order_date = none)
    (hpast : ∀ e ∈ docs, ∀ ts, e.data.order_date = some ts →
        ts.seconds * 1000 < now) :
    (toOrder now d).order_date = now ∧
    (∀ e ts, e.data.order_date = some ts →
        (toOrder now e).order_date = ts.seconds * 1000) ∧
    (∀ e ∈ docs, ∀ ts, e.data.order_date = some ts →
        (toOrder now e).order_date < now) ∧
    ∃ v, filteredOrders (processSnapshot now docs) "all" "" = .ok v ∧
      toOrder now d ∈ v.result ∧
      List.Pairwise (fun a b => a.order_date < now → b.order_date < now)
        v.result := by
  refine ⟨by simp [toOrder, hmiss], ?_, ?_, ?_⟩
  · intro e ts h
    simp [toOrder, h]
  · intro e he ts h
    simp only [toOrder, h]
    exact hpast e he ts h
  · refine ⟨⟨sortByDateDesc (processSnapshot now docs),
      sortByDateDesc (processSnapshot now docs)⟩,
      filteredOrders_all_empty (processSnapshot now docs), ?_, ?_⟩
    · show toOrder now d ∈ sortByDateDesc (processSnapshot now docs)
      rw [sortByDateDesc, List.mem_insertionSort]
      exact List.mem_map_of_mem _ hd
    · show List.Pairwise _ (sortByDateDesc (processSnapshot now docs))
      have hs := List.sorted_insertionSort dateGE (processSnapshot now docs)
      exact List.Pairwise.imp (fun hab ha => lt_of_le_of_lt hab ha) hs

/-- Witness for C10 on a two-document snapshot processed at time 5000. -/
theorem missing_timestamp_defaults_to_now_witness :
    (toOrder 5000 dMiss).order_date = 5000 ∧
    (∀ e ts, e.data.order_date = some ts →
        (toOrder 5000 e).order_date = ts.seconds * 1000) ∧
    (∀ e ∈ [dOld, dMiss], ∀ ts, e.data.order_date = some ts →
        (toOrder 5000 e).order_date < 5000) ∧
    ∃ v, filteredOrders (processSnapshot 5000 [dOld, dMiss]) "all" ""
        = .ok v ∧
      toOrder 5000 dMiss ∈ v.result ∧
      List.Pairwise (fun a b => a.order_date < 5000 → b.order_date < 5000)
        v.result :=
  missing_timestamp_defaults_to_now 5000 [dOld, dMiss] dMiss (by decide) rfl
    (by
      intro e he ts h
      simp only [List.mem_cons, List.not_mem_nil, or_false] at he
      rcases he with rfl | rfl
      · simp only [dOld] at h
        injection h with h
        subst h
        decide
      · simp only [dMiss] at h
        cases h)
